import Mathlib

/-!
Shallow embedding of the voice-changer client core
(`src/client/core/src/lib.rs`, function `start_stream`) and proofs of the
spec claims about it.

Machine integers are modelled as `Int` with explicit twos-complement
wrapping where the Rust types wrap (`i32` accumulation in the down-mix),
and as `Nat` for byte values.  The Rust `/` on `i32` truncates toward zero,
which is `Int.tdiv`.  All definitions below are translated from the Rust
source; line numbers in comments refer to `src/client/core/src/lib.rs`.
-/

/-- Wire contract, `AudioConfig` (lib.rs lines 13-18).  `sample_rate : u32`,
`channels : u16`, `frame_size : u32` are modelled as `Nat`. -/
structure AudioConfig where
  sample_rate : Nat
  channels : Nat
  frame_size : Nat
deriving DecidableEq, Repr

/-- Default configuration used by the desktop shell
(`src/client/app/src-tauri/src/main.rs` line 23). -/
def defaultConfig : AudioConfig := ⟨48000, 1, 480⟩

def i16min : Int := -32768

def i16max : Int := 32767

/-- The value range of a Rust `i16` sample. -/
def isI16 (s : Int) : Prop := i16min ≤ s ∧ s ≤ i16max

instance (s : Int) : Decidable (isI16 s) := by unfold isI16; infer_instance

/-- Rust `x.clamp(i16::MIN as i32, i16::MAX as i32)` (lib.rs line 161). -/
def clampI16 (x : Int) : Int :=
  if x < i16min then i16min else if x > i16max then i16max else x

/-- Twos-complement wrap of an integer into the `i32` range, modelling the
overflow behaviour of Rust release-mode `i32` arithmetic. -/
def wrap32 (x : Int) : Int := (x + 2 ^ 31) % 2 ^ 32 - 2 ^ 31

/-- The running `i32` sum `sum += s as i32` of lib.rs lines 159-160:
a left fold whose additions wrap at the `i32` boundary. -/
def sumI32 (xs : List Int) : Int := xs.foldl (fun acc s => wrap32 (acc + s)) 0

/-- Rust slice `chunks(n)` (lib.rs line 158): splits a list into consecutive
chunks of `n` elements, the last chunk possibly shorter.  Rust panics when
`n = 0`; here the `n = 0` case returns `[]` and is never used (the chunk
size is the input device channel count, at least 2 on this path). -/
def chunksRust (n : Nat) (xs : List α) : List (List α) :=
  match xs with
  | [] => []
  | x :: rest =>
    if _h2 : n = 0 then []
    else (x :: rest).take n :: chunksRust n ((x :: rest).drop n)
termination_by xs.length
decreasing_by
  simp only [List.length_drop, List.length_cons]
  omega

/-- Down-mix of one interleaved device frame (lib.rs lines 158-162):
sum the channel samples in wrapping `i32`, divide by the channel count with
truncating division, clamp to the `i16` range. -/
def downmixFrame (inChannels : Nat) (frame : List Int) : Int :=
  clampI16 (Int.tdiv (sumI32 frame) (inChannels : Int))

/-- Body of the input callback before draining (lib.rs lines 154-164):
mono input is appended to the accumulator unchanged, multi-channel input is
down-mixed one interleaved frame at a time. -/
def processInput (inChannels : Nat) (accum data : List Int) : List Int :=
  if inChannels = 1 then accum ++ data
  else accum ++ (chunksRust inChannels data).map (downmixFrame inChannels)

/-- The drain loop of lib.rs lines 166-171: while the accumulator holds at
least `spf` samples, remove exactly `spf` samples from the front as one
frame.  Returns the drained frames in order and the remaining accumulator.
The source loops forever when `spf = 0`; that case is modelled as draining
nothing and is excluded by hypothesis in the theorems. -/
def drainFrames (spf : Nat) (accum : List Int) : List (List Int) × List Int :=
  if _h : spf = 0 then ([], accum)
  else if _h2 : accum.length < spf then ([], accum)
  else
    let pr := drainFrames spf (accum.drop spf)
    (accum.take spf :: pr.1, pr.2)
termination_by accum.length
decreasing_by
  simp only [List.length_drop]
  omega

/-- Little-endian byte pair of one `i16` sample, as produced by
`bytemuck::cast_slice::<i16, u8>` on a little-endian target
(lib.rs line 168): the 16-bit twos-complement representation of the sample,
low byte first. -/
def i16ToLEBytes (s : Int) : List Nat :=
  let u := (s % 65536).toNat
  [u % 256, u / 256]

/-- Serialization of a drained sample chunk into a binary frame payload
(lib.rs line 168). -/
def serializeFrame (samples : List Int) : List Nat :=
  (samples.map i16ToLEBytes).flatten

/-- Samples per wire frame, `frame_size * channels` (lib.rs line 165). -/
def samplesPerFrame (cfg : AudioConfig) : Nat := cfg.frame_size * cfg.channels

/-- One invocation of the input-device callback (lib.rs lines 153-172):
extend the accumulator (down-mixing if the device is multi-channel), drain
all complete frames, serialize each as bytes.  Returns the serialized
payloads handed to `frame_tx.try_send` and the new accumulator. -/
def inputCallback (cfg : AudioConfig) (inChannels : Nat) (accum data : List Int) :
    List (List Nat) × List Int :=
  let accum2 := processInput inChannels accum data
  let pr := drainFrames (samplesPerFrame cfg) accum2
  (pr.1.map serializeFrame, pr.2)

-- Playback path

/-- Twos-complement reading of a 16-bit unsigned value as an `i16`. -/
def u16ToI16 (u : Nat) : Int := if u < 32768 then (u : Int) else (u : Int) - 65536

/-- Decode consecutive little-endian byte pairs as `i16` samples (the memory
reinterpretation performed by `bytemuck::cast_slice::<u8, i16>` on a
little-endian target). -/
def decodeLEPairs : List Nat → List Int
  | b0 :: b1 :: rest => u16ToI16 (b0 + 256 * b1) :: decodeLEPairs rest
  | _ => []

/-- The `bytemuck::cast_slice(&bytes)` reinterpretation of a byte buffer as
i16 samples (lib.rs lines 195 and 231).  `cast_slice` panics unless the
byte length is a multiple of 2; the panic is modelled as `none`. -/
def castSliceI16 (bytes : List Nat) : Option (List Int) :=
  if bytes.length % 2 = 0 then some (decodeLEPairs bytes) else none

/-- A websocket message as seen by the reader task. -/
inductive WsMessage where
  | binary (data : List Nat)
  | text (s : String)
  | control
deriving DecidableEq

/-- Reader task handling of one successfully received message
(lib.rs lines 292-300): a binary payload is forwarded to the playback queue
unchanged and unchecked; any other message kind is discarded. -/
def readerForward : WsMessage → Option (List Nat)
  | .binary data => some data
  | _ => none

/-- One sample written into the device buffer (lib.rs lines 197-204 and
234-240): one slot when the device is mono, one slot per channel otherwise.
Writes past the end of the buffer are cut off by the enclosing `take`. -/
def writeSample (channels : Nat) (v : α) : List α :=
  if channels = 1 then [v] else List.replicate channels v

/-- Mono-to-N-channel duplication of a decoded frame. -/
def upmixFrame (channels : Nat) (samples : List α) : List α :=
  (samples.map (writeSample channels)).flatten

/-- The entire audio content a queue can contribute to the device buffer:
every frame decoded, converted and duplicated across the channels, in
order.  Used to state what the fill loop has written at the moment the
queue runs empty. -/
def upmixQueue (channels : Nat) (conv : Int → α) (queue : List (List Nat)) :
    List α :=
  (queue.map (fun f => upmixFrame channels ((decodeLEPairs f).map conv))).flatten

/-- The playback fill loop (lib.rs lines 192-212 / 228-248): while the
buffer has space, dequeue one frame, reinterpret it as i16, convert each
sample with `conv` and write it to every channel; on an empty queue
zero-fill the remaining space and stop.  Returns the written buffer and the
remaining queue, or `none` for the `cast_slice` panic on an ill-formed
frame. -/
def fillFromQueue (channels : Nat) (conv : Int → α) (zero : α) :
    Nat → List (List Nat) → Option (List α × List (List Nat))
  | 0, queue => some ([], queue)
  | space + 1, [] => some (List.replicate (space + 1) zero, [])
  | space + 1, bytes :: rest =>
    match castSliceI16 bytes with
    | none => none
    | some samples =>
      let written := (upmixFrame channels (samples.map conv)).take (space + 1)
      match fillFromQueue channels conv zero (space + 1 - written.length) rest with
      | none => none
      | some (more, q) => some (written ++ more, q)

/-- One invocation of the output-device callback (lib.rs lines 187-216 for
I16 and 224-251 for F32; the two branches are identical up to the sample
conversion `conv` and the silence value `zero`): when the non-blocking
`try_lock` fails the whole buffer is zeroed and the queue is untouched;
otherwise the fill loop runs. -/
def outputCallback (channels : Nat) (conv : Int → α) (zero : α)
    (lockAvailable : Bool) (bufLen : Nat) (queue : List (List Nat)) :
    Option (List α × List (List Nat)) :=
  if lockAvailable then fillFromQueue channels conv zero bufLen queue
  else some (List.replicate bufLen zero, queue)

/-- The I16 output branch: samples are copied unchanged (lib.rs line 202). -/
def outputCallbackI16 (channels : Nat) (lockAvailable : Bool) (bufLen : Nat)
    (queue : List (List Nat)) : Option (List Int × List (List Nat)) :=
  outputCallback channels (fun s => s) 0 lockAvailable bufLen queue

/-- The F32 conversion `(s as f32) / 32768.0` (lib.rs line 233).  For an
i16-ranged `s` both the cast to f32 and the division by 2^15 are exact in
IEEE single precision (the significand needs at most 15 bits and no
overflow or underflow can occur), so the computation is modelled exactly
over the rationals. -/
def i16ToF32 (s : Int) : ℚ := (s : ℚ) / 32768

/-- The F32 output branch (lib.rs lines 224-251). -/
def outputCallbackF32 (channels : Nat) (lockAvailable : Bool) (bufLen : Nat)
    (queue : List (List Nat)) : Option (List ℚ × List (List Nat)) :=
  outputCallback channels i16ToF32 0 lockAvailable bufLen queue

-- Network session and controller

/-- A wire message sent by the client. -/
inductive WireMsg where
  | text (s : String)
  | binary (payload : List Nat)
deriving DecidableEq

/-- The serde_json serialization of `InitMessage` (lib.rs lines 21-29,
built and sent at lines 274-287): `#[serde(rename_all = "camelCase")]`
renames the snake_case fields on the wire and serde_json emits struct
fields in declaration order. -/
def initJson (cfg : AudioConfig) : String :=
  "\x7b\"type\":\"init\",\"sampleRate\":" ++ toString cfg.sample_rate
    ++ ",\"channels\":" ++ toString cfg.channels
    ++ ",\"format\":\"S16LE\",\"frameSize\":" ++ toString cfg.frame_size ++ "\x7d"

/-- The statistics JSON of lib.rs lines 331-336.  The default serde_json
`Value` object keeps its keys in a sorted map, so the four keys serialize
in alphabetical order.  The rounded elapsed-seconds rendering is a
parameter: wall-clock time is outside the model. -/
def statsJson (elapsedText : String) (frames bytes : Nat) : String :=
  "\x7b\"bytes\":" ++ toString bytes ++ ",\"elapsedSec\":" ++ elapsedText
    ++ ",\"frames\":" ++ toString frames ++ ",\"type\":\"stats\"\x7d"

/-- One iteration of the session main loop (lib.rs lines 309-342): the
stop signal is pending, or the select yields an outbound frame or the idle
tick; `statsDue` abstracts the `last_stats.elapsed() >= 1s` test and
`elapsed` the rounded elapsed-seconds text of that moment. -/
inductive LoopEvent where
  | stop
  | frame (payload : List Nat) (statsDue : Bool) (elapsed : String)
  | tick (statsDue : Bool) (elapsed : String)

/-- The messages emitted by the session main loop (lib.rs lines 309-342),
threading the `total_frames` and `total_bytes` counters: an available
outbound frame is sent as a binary message and counted, and after each
iteration a stats text message is sent when due. -/
def sessionLoop : List LoopEvent → Nat → Nat → List WireMsg
  | [], _, _ => []
  | .stop :: _, _, _ => []
  | .frame p due e :: rest, frames, bytes =>
    WireMsg.binary p ::
      ((if due then [WireMsg.text (statsJson e (frames + 1) (bytes + p.length))] else [])
        ++ sessionLoop rest (frames + 1) (bytes + p.length))
  | .tick due e :: rest, frames, bytes =>
    (if due then [WireMsg.text (statsJson e frames bytes)] else [])
      ++ sessionLoop rest frames bytes

/-- All wire messages of one session (lib.rs lines 274-342): the init
handshake is sent first (lines 281-287), then the main loop runs with both
counters starting at zero (lines 306-307). -/
def sessionWire (cfg : AudioConfig) (events : List LoopEvent) : List WireMsg :=
  WireMsg.text (initJson cfg) :: sessionLoop events 0 0

/-- A cpal sample format as far as this code inspects it. -/
inductive SampleFormat where
  | I16
  | F32
  | other (tag : Nat)
deriving DecidableEq

/-- A supported device configuration range as reported by cpal. -/
structure SupportedRange where
  channels : Nat
  sampleFormat : SampleFormat
  minRate : Nat
  maxRate : Nat
deriving DecidableEq

/-- The find predicate of the selection loops (lib.rs lines 81 and 114):
`c.channels() == ch && c.sample_format() == fmt`. -/
def configMatch (ch : Nat) (fmt : SampleFormat) (c : SupportedRange) : Bool :=
  c.channels == ch && c.sampleFormat == fmt

/-- The input preference ladder (lib.rs lines 76-89): loop over the desired
channel counts `[cfg.channels, 2]`, picking the first supported I16 range. -/
def pickInput (cfgChannels : Nat) (supported : List SupportedRange) :
    Option SupportedRange :=
  match supported.find? (configMatch cfgChannels SampleFormat.I16) with
  | some r => some r
  | none => supported.find? (configMatch 2 SampleFormat.I16)

/-- Inner loop of the output selection (lib.rs lines 111-119): first match
over the desired channel counts for a fixed format. -/
def pickChannelsLoop (supported : List SupportedRange) (fmt : SampleFormat) :
    List Nat → Option SupportedRange
  | [] => none
  | ch :: chs =>
    match supported.find? (configMatch ch fmt) with
    | some r => some r
    | none => pickChannelsLoop supported fmt chs

/-- Outer loop of the output selection (lib.rs lines 110-121): first match
over the desired formats, each scanning the desired channel counts. -/
def pickFormatsLoop (supported : List SupportedRange) (cfgChannels : Nat) :
    List SampleFormat → Option (SupportedRange × SampleFormat)
  | [] => none
  | fmt :: fmts =>
    match pickChannelsLoop supported fmt [cfgChannels, 2] with
    | some r => some (r, fmt)
    | none => pickFormatsLoop supported cfgChannels fmts

/-- The full output selection (lib.rs lines 100-130): the preference
ladder over formats `[I16, F32]` and channel counts `[cfg.channels, 2]`,
then the first supported configuration of any kind, failing only when the
supported list is empty. -/
def pickOutput (cfgChannels : Nat) (supported : List SupportedRange) :
    Option (SupportedRange × SampleFormat) :=
  match pickFormatsLoop supported cfgChannels [SampleFormat.I16, SampleFormat.F32] with
  | some p => some p
  | none =>
    match supported.head? with
    | some first => some (first, first.sampleFormat)
    | none => none

/-- The host audio environment visible to the worker thread: for each of
the two default devices, `none` when the device is absent and otherwise
its supported configuration ranges (lib.rs lines 58-66, 71, 101; the
`Err` branch of the supported-configs query, which also just logs and
returns, is not modelled separately). -/
structure HostEnv where
  defaultInput : Option (List SupportedRange)
  defaultOutput : Option (List SupportedRange)

/-- An action of the worker thread observable from outside. -/
inductive WorkerAction where
  | logError (msg : String)
  | socketConnect (url : String)
  | sendInit (json : String)
deriving DecidableEq

/-- The worker thread body up to the handshake (lib.rs lines 56-287) as
its list of observable actions: each failed setup step logs to stderr and
returns early, and only when both default devices exist, the input ladder
matches and the chosen output format is writable does the worker attempt
the socket connect followed by the init send.  Stream construction and
`play` (lines 146-265) produce no observable action here, and the main
loop after the handshake is modelled by `sessionLoop`. -/
def workerBody (env : HostEnv) (url : String) (cfg : AudioConfig) :
    List WorkerAction :=
  match env.defaultInput with
  | none => [.logError "No default input device"]
  | some inputSupported =>
    match env.defaultOutput with
    | none => [.logError "No default output device"]
    | some outputSupported =>
      match pickInput cfg.channels inputSupported with
      | none => [.logError "No matching input config for I16 (mono or stereo)"]
      | some _ =>
        match pickOutput cfg.channels outputSupported with
        | none => [.logError "No supported output configs available"]
        | some (_, SampleFormat.other _) =>
          [.logError "Unsupported output sample format"]
        | some (_, _) => [.socketConnect url, .sendInit (initJson cfg)]

/-- The caller-visible outcome of `start_stream`. -/
inductive StartError where
  | DeviceUnavailable
  | ConfigUnsupported
  | NetworkUnreachable
deriving DecidableEq

inductive StartResult where
  | ok
  | err (e : StartError)
deriving DecidableEq

/-- The model of `start_stream` (lib.rs lines 44-349): it spawns the
worker thread and returns `Ok(StreamHandle ...)` unconditionally
(line 348); worker failures are only logged inside the worker.  Returns
the caller-visible result paired with the action trace of the worker. -/
def start_stream (env : HostEnv) (url : String) (cfg : AudioConfig) :
    StartResult × List WorkerAction :=
  (.ok, workerBody env url cfg)

-- Outbound queue

/-- The `try_send` of the bounded `tokio::sync::mpsc::channel(64)`
(lib.rs lines 142 and 169-170): append the frame when the queue holds
fewer than `cap` frames, silently drop it otherwise.  A total function:
the audio callback never blocks. -/
def trySendQueue (cap : Nat) (q : List (List Nat)) (f : List Nat) :
    List (List Nat) :=
  if q.length < cap then q ++ [f] else q

/-- One event on the outbound queue: the capture callback producing a
frame (`try_send`) or the session loop receiving one (`frame_rx.recv`,
lib.rs line 315). -/
inductive QueueEvent where
  | produce (f : List Nat)
  | consume

/-- State of the outbound queue system: the queue contents and the frames
received so far by the network session, in order. -/
structure QueueState where
  queue : List (List Nat)
  consumed : List (List Nat)

def queueStep (cap : Nat) (s : QueueState) : QueueEvent → QueueState
  | .produce f => { s with queue := trySendQueue cap s.queue f }
  | .consume =>
    match s.queue with
    | [] => s
    | f :: rest => { queue := rest, consumed := s.consumed ++ [f] }

/-- Run the outbound-queue system from empty on a list of events. -/
def queueRun (cap : Nat) (events : List QueueEvent) : QueueState :=
  events.foldl (queueStep cap) ⟨[], []⟩

/-- The frames produced by capture during a list of events, in order. -/
def producedFrames (events : List QueueEvent) : List (List Nat) :=
  events.filterMap (fun e => match e with | .produce f => some f | .consume => none)

-- Theorems
-- Helper lemmas for the capture path

theorem serializeFrame_length (samples : List Int) :
    (serializeFrame samples).length = samples.length * 2 := by
  induction samples with
  | nil => rfl
  | cons s rest ih =>
    have h : serializeFrame (s :: rest) = i16ToLEBytes s ++ serializeFrame rest := rfl
    rw [h, List.length_append, ih]
    simp only [i16ToLEBytes, List.length_cons, List.length_nil]
    omega

theorem drainFrames_mem_length (spf : Nat) (accum : List Int) :
    ∀ f ∈ (drainFrames spf accum).1, f.length = spf := by
  induction accum using drainFrames.induct spf with
  | case1 accum h => intro f hf; rw [drainFrames] at hf; simp [h] at hf
  | case2 accum h h2 => intro f hf; rw [drainFrames] at hf; simp [h, h2] at hf
  | case3 accum h h2 ih =>
    intro f hf
    rw [drainFrames] at hf
    simp only [dif_neg h, dif_neg h2] at hf
    rcases List.mem_cons.mp hf with hf | hf
    · subst hf
      simp [List.length_take]
      omega
    · exact ih f hf

theorem wrap32_eq_self {x : Int} (h1 : -(2 ^ 31) ≤ x) (h2 : x < 2 ^ 31) :
    wrap32 x = x := by
  unfold wrap32
  have h3 : 0 ≤ x + 2 ^ 31 := by omega
  have h4 : x + 2 ^ 31 < 2 ^ 32 := by omega
  rw [Int.emod_eq_of_lt h3 h4]
  omega

theorem foldl_wrap32_eq (xs : List Int) : ∀ (acc : Int) (m : Nat),
    (∀ s ∈ xs, isI16 s) → -32768 * m ≤ acc → acc ≤ 32767 * m →
    m + xs.length ≤ 65535 →
    xs.foldl (fun a s => wrap32 (a + s)) acc = acc + xs.sum := by
  induction xs with
  | nil => intro acc m _ _ _ _; simp
  | cons s rest ih =>
    intro acc m hb h1 h2 hlen
    have hs : isI16 s := hb s (by simp)
    unfold isI16 i16min i16max at hs
    simp only [List.length_cons] at hlen
    have hm : (m : Int) ≤ 65534 := by omega
    have hw : wrap32 (acc + s) = acc + s := by
      apply wrap32_eq_self <;> omega
    have hstep : (s :: rest).foldl (fun a s => wrap32 (a + s)) acc
        = rest.foldl (fun a s => wrap32 (a + s)) (acc + s) := by
      simp [List.foldl_cons, hw]
    rw [hstep, ih (acc + s) (m + 1) (fun a ha => hb a (by simp [ha]))
      (by push_cast; omega) (by push_cast; omega) (by omega)]
    simp only [List.sum_cons]
    ring

theorem sumI32_eq_sum (xs : List Int) (hb : ∀ s ∈ xs, isI16 s)
    (hlen : xs.length ≤ 65535) :
    sumI32 xs = xs.sum := by
  unfold sumI32
  have := foldl_wrap32_eq xs 0 0 hb (by simp) (by simp) (by omega)
  omega

theorem list_sum_bounds (xs : List Int) (hb : ∀ s ∈ xs, isI16 s) :
    -32768 * xs.length ≤ xs.sum ∧ xs.sum ≤ 32767 * xs.length := by
  induction xs with
  | nil => simp
  | cons s rest ih =>
    have hs := hb s (by simp)
    have hr := ih (fun a ha => hb a (by simp [ha]))
    unfold isI16 i16min i16max at hs
    simp only [List.sum_cons, List.length_cons]
    push_cast
    push_cast at hr
    omega

theorem tdiv_bounds (s : Int) (ch : Nat) (h1 : 1 ≤ ch)
    (hlo : -32768 * (ch : Int) ≤ s) (hhi : s ≤ 32767 * (ch : Int)) :
    i16min ≤ Int.tdiv s ch ∧ Int.tdiv s ch ≤ i16max := by
  have hc0 : (0 : Int) < (ch : Int) := by exact_mod_cast h1
  have hcne : (ch : Int) ≠ 0 := by omega
  rcases le_or_lt 0 s with hpos | hneg
  · have he : Int.tdiv s ch = s / ch := Int.tdiv_eq_ediv hpos (by omega)
    constructor
    · rw [he]
      have := Int.ediv_nonneg hpos (le_of_lt hc0)
      unfold i16min
      omega
    · rw [he]
      have h2 : s / (ch : Int) ≤ 32767 * (ch : Int) / (ch : Int) :=
        Int.ediv_le_ediv hc0 hhi
      rw [Int.mul_ediv_cancel _ hcne] at h2
      unfold i16max
      omega
  · have hrew : Int.tdiv s ch = -((-s).tdiv ch) := by
      rw [← Int.neg_tdiv, neg_neg]
    have hsn : 0 ≤ -s := by omega
    have he : Int.tdiv (-s) ch = (-s) / ch := Int.tdiv_eq_ediv hsn (by omega)
    have hub : (-s) / (ch : Int) ≤ 32768 := by
      have h2 : (-s) / (ch : Int) ≤ 32768 * (ch : Int) / (ch : Int) :=
        Int.ediv_le_ediv hc0 (by omega)
      rw [Int.mul_ediv_cancel _ hcne] at h2
      omega
    have hnn : 0 ≤ (-s) / (ch : Int) := Int.ediv_nonneg hsn (le_of_lt hc0)
    unfold i16min i16max
    rw [hrew, he]
    omega

theorem clampI16_eq_self {x : Int} (hlo : i16min ≤ x) (hhi : x ≤ i16max) :
    clampI16 x = x := by
  unfold clampI16
  rw [if_neg (by omega), if_neg (by omega)]

theorem chunksRust_mem_length {α : Type} (n : Nat) (xs : List α) :
    ∀ c ∈ chunksRust n xs, c.length ≤ n := by
  induction xs using chunksRust.induct n with
  | case1 => intro c hc; rw [chunksRust] at hc; simp at hc
  | case2 x rest h => intro c hc; rw [chunksRust] at hc; simp [h] at hc
  | case3 x rest h ih =>
    intro c hc
    rw [chunksRust] at hc
    simp only [dif_neg h] at hc
    rcases List.mem_cons.mp hc with hc | hc
    · subst hc; simp [List.length_take]
    · exact ih c hc

theorem chunksRust_mem_mem {α : Type} (n : Nat) (xs : List α) :
    ∀ c ∈ chunksRust n xs, ∀ a ∈ c, a ∈ xs := by
  induction xs using chunksRust.induct n with
  | case1 => intro c hc; rw [chunksRust] at hc; simp at hc
  | case2 x rest h => intro c hc; rw [chunksRust] at hc; simp [h] at hc
  | case3 x rest h ih =>
    intro c hc
    rw [chunksRust] at hc
    simp only [dif_neg h] at hc
    rcases List.mem_cons.mp hc with hc | hc
    · subst hc; intro a ha; exact List.mem_of_mem_take ha
    · intro a ha
      exact List.mem_of_mem_drop (ih c hc a ha)

/-- C1: every frame payload the capture callback sends to the outbound queue
has byte length exactly `frame_size * channels * 2`: the drain loop removes
exactly `frame_size * channels` i16 samples per frame and each sample
serializes to 2 little-endian bytes. -/
theorem C1_outbound_payload_length (cfg : AudioConfig) (inChannels : Nat)
    (accum data : List Int) (payload : List Nat)
    (hp : payload ∈ (inputCallback cfg inChannels accum data).1) :
    payload.length = cfg.frame_size * cfg.channels * 2 := by
  simp only [inputCallback, List.mem_map] at hp
  obtain ⟨f, hf, rfl⟩ := hp
  rw [serializeFrame_length, drainFrames_mem_length _ _ f hf]
  rfl

/-- Witness for C1 at a concrete callback invocation. -/
theorem C1_outbound_payload_length_witness :
    ([1, 0, 2, 0] : List Nat).length = 2 * 1 * 2 :=
  C1_outbound_payload_length ⟨8000, 1, 2⟩ 1 [] [1, 2, 3] [1, 0, 2, 0]
    (by simp [inputCallback, processInput, samplesPerFrame, drainFrames,
          serializeFrame, i16ToLEBytes])

/-- C10: for a multi-channel input frame with at most 65535 channels and
i16-ranged samples, the i32 sum in the down-mix never wraps, its absolute
value is at most `channels * 32768`, the truncating-division average already
lies in the i16 range, and therefore the clamp never changes the value. -/
theorem C10_downmix_sum_no_overflow (ch : Nat) (frame : List Int)
    (h1 : 1 ≤ ch) (h2 : ch ≤ 65535) (hlen : frame.length ≤ ch)
    (hb : ∀ s ∈ frame, isI16 s) :
    sumI32 frame = frame.sum
    ∧ |frame.sum| ≤ 32768 * (ch : Int)
    ∧ i16min ≤ Int.tdiv frame.sum (ch : Int)
    ∧ Int.tdiv frame.sum (ch : Int) ≤ i16max
    ∧ downmixFrame ch frame = Int.tdiv frame.sum (ch : Int) := by
  have hsum := list_sum_bounds frame hb
  have hlen' : (frame.length : Int) ≤ (ch : Int) := by exact_mod_cast hlen
  have hlo : -32768 * (ch : Int) ≤ frame.sum := by
    have := hsum.1
    omega
  have hhi : frame.sum ≤ 32767 * (ch : Int) := by
    have := hsum.2
    omega
  have hdiv := tdiv_bounds frame.sum ch h1 hlo hhi
  have hs32 : sumI32 frame = frame.sum :=
    sumI32_eq_sum frame hb (le_trans hlen h2)
  refine ⟨hs32, abs_le.mpr ⟨by omega, by omega⟩, hdiv.1, hdiv.2, ?_⟩
  unfold downmixFrame
  rw [hs32]
  exact clampI16_eq_self hdiv.1 hdiv.2

/-- Witness for C10 at a concrete stereo frame. -/
theorem C10_downmix_sum_no_overflow_witness :
    sumI32 [10000, -10000] = ([10000, -10000] : List Int).sum
    ∧ |([10000, -10000] : List Int).sum| ≤ 32768 * ((2 : Nat) : Int)
    ∧ i16min ≤ Int.tdiv ([10000, -10000] : List Int).sum ((2 : Nat) : Int)
    ∧ Int.tdiv ([10000, -10000] : List Int).sum ((2 : Nat) : Int) ≤ i16max
    ∧ downmixFrame 2 [10000, -10000]
        = Int.tdiv ([10000, -10000] : List Int).sum ((2 : Nat) : Int) :=
  C10_downmix_sum_no_overflow 2 [10000, -10000] (by decide) (by decide)
    (by decide) (by decide)

/-- C7: on a multi-channel input device the capture callback appends, per
interleaved device frame, exactly one mono sample equal to the clamped
truncating-division mean of the channel samples of the frame; in particular a
stereo frame with left 10000 and right -10000 down-mixes to the sample 0. -/
theorem C7_downmix_clamped_mean (ch : Nat) (accum data : List Int)
    (hch : 2 ≤ ch) (hch2 : ch ≤ 65535) (hb : ∀ s ∈ data, isI16 s) :
    processInput ch accum data
      = accum ++ (chunksRust ch data).map
          (fun fr => clampI16 (Int.tdiv fr.sum (ch : Int)))
    ∧ processInput 2 [] [10000, -10000] = [0] := by
  constructor
  · unfold processInput
    rw [if_neg (by omega)]
    congr 1
    apply List.map_congr_left
    intro fr hfr
    unfold downmixFrame
    rw [sumI32_eq_sum fr (fun s hs => hb s (chunksRust_mem_mem ch data fr hfr s hs))
      (le_trans (chunksRust_mem_length ch data fr hfr) hch2)]
  · simp [processInput, chunksRust, downmixFrame, sumI32, wrap32, clampI16,
      i16min, i16max]

/-- Witness for C7 at a concrete stereo callback slice. -/
theorem C7_downmix_clamped_mean_witness :
    processInput 2 [] [10000, -10000]
      = [] ++ (chunksRust 2 [10000, -10000]).map
          (fun fr => clampI16 (Int.tdiv fr.sum ((2 : Nat) : Int)))
    ∧ processInput 2 [] [10000, -10000] = [0] :=
  C7_downmix_clamped_mean 2 [] [10000, -10000] (by decide) (by decide) (by decide)

-- Playback path lemmas

theorem u16ToI16_roundtrip (s : Int) (hs : isI16 s) :
    u16ToI16 ((s % 65536).toNat) = s := by
  unfold isI16 i16min i16max at hs
  unfold u16ToI16
  split <;> omega

theorem decode_serialize_roundtrip (samples : List Int)
    (hb : ∀ s ∈ samples, isI16 s) :
    decodeLEPairs (serializeFrame samples) = samples := by
  induction samples with
  | nil => rfl
  | cons s rest ih =>
    have hs := hb s (by simp)
    have hser : serializeFrame (s :: rest)
        = (s % 65536).toNat % 256 :: (s % 65536).toNat / 256 :: serializeFrame rest := rfl
    rw [hser]
    show u16ToI16 ((s % 65536).toNat % 256 + 256 * ((s % 65536).toNat / 256))
        :: decodeLEPairs (serializeFrame rest) = s :: rest
    have harg : (s % 65536).toNat % 256 + 256 * ((s % 65536).toNat / 256)
        = (s % 65536).toNat := by omega
    rw [harg, u16ToI16_roundtrip s hs, ih (fun a ha => hb a (by simp [ha]))]

theorem serializeFrame_even (samples : List Int) :
    (serializeFrame samples).length % 2 = 0 := by
  rw [serializeFrame_length]
  omega

theorem writeSample_eq_replicate (channels : Nat) (v : α) :
    writeSample channels v = List.replicate channels v := by
  unfold writeSample
  split
  · rename_i h; rw [h]; rfl
  · rfl

theorem upmixFrame_length (channels : Nat) (xs : List α) :
    (upmixFrame channels xs).length = channels * xs.length := by
  unfold upmixFrame
  induction xs with
  | nil => simp
  | cons x rest ih =>
    simp only [List.map_cons, List.flatten_cons, List.length_append, ih,
      writeSample_eq_replicate, List.length_replicate, List.length_cons]
    ring

theorem fillFromQueue_total (channels : Nat) (conv : Int → α) (zero : α) :
    ∀ (queue : List (List Nat)) (space : Nat),
    (∀ f ∈ queue, f.length % 2 = 0) →
    ∃ out q', fillFromQueue channels conv zero space queue = some (out, q')
      ∧ out.length = space
      ∧ (∃ k, q' = queue.drop k)
      ∧ (q' = [] → out = (upmixQueue channels conv queue).take space
          ++ List.replicate (space - (upmixQueue channels conv queue).length) zero) := by
  intro queue
  induction queue with
  | nil =>
    intro space _
    cases space with
    | zero =>
      exact ⟨[], [], rfl, rfl, ⟨0, rfl⟩, fun _ => rfl⟩
    | succ n =>
      refine ⟨List.replicate (n + 1) zero, [], rfl, by simp, ⟨0, rfl⟩, fun _ => ?_⟩
      simp [upmixQueue]
  | cons bytes rest ih =>
    intro space h
    cases space with
    | zero =>
      exact ⟨[], bytes :: rest, rfl, rfl, ⟨0, rfl⟩, fun hq => by simp at hq⟩
    | succ n =>
      have hdec : castSliceI16 bytes = some (decodeLEPairs bytes) := by
        unfold castSliceI16
        rw [if_pos (h bytes (by simp))]
      obtain ⟨out, q', heq, hlen, ⟨k, hk⟩, hzero⟩ :=
        ih (n + 1
            - ((upmixFrame channels ((decodeLEPairs bytes).map conv)).take (n + 1)).length)
          (fun f hf => h f (by simp [hf]))
      refine ⟨(upmixFrame channels ((decodeLEPairs bytes).map conv)).take (n + 1) ++ out,
        q', ?_, ?_, ⟨k + 1, by simp [hk]⟩, ?_⟩
      · simp only [fillFromQueue, hdec]
        rw [heq]
      · have htake : ((upmixFrame channels ((decodeLEPairs bytes).map conv)).take
            (n + 1)).length ≤ n + 1 := by
          simp [List.length_take]
        simp only [List.length_append, hlen]
        omega
      · intro hq
        have hout := hzero hq
        have hQ : upmixQueue channels conv (bytes :: rest)
            = upmixFrame channels ((decodeLEPairs bytes).map conv)
              ++ upmixQueue channels conv rest := rfl
        have hmin : ((upmixFrame channels ((decodeLEPairs bytes).map conv)).take
              (n + 1)).length
            = min (n + 1)
                (upmixFrame channels ((decodeLEPairs bytes).map conv)).length :=
          List.length_take _ _
        have e1 : n + 1
              - ((upmixFrame channels ((decodeLEPairs bytes).map conv)).take
                  (n + 1)).length
            = n + 1
              - (upmixFrame channels ((decodeLEPairs bytes).map conv)).length := by
          omega
        have e2 : n + 1
              - ((upmixFrame channels ((decodeLEPairs bytes).map conv)).take
                  (n + 1)).length
              - (upmixQueue channels conv rest).length
            = n + 1
              - (upmixFrame channels ((decodeLEPairs bytes).map conv)
                  ++ upmixQueue channels conv rest).length := by
          rw [List.length_append]
          omega
        rw [hout, hQ, List.take_append_eq_append_take, ← e1, ← e2, List.append_assoc]

theorem fillFromQueue_single_exact (channels : Nat) (conv : Int → α) (zero : α)
    (f : List Nat) (hf : f.length % 2 = 0)
    (hpos : 0 < (upmixFrame channels ((decodeLEPairs f).map conv)).length) :
    fillFromQueue channels conv zero
        (upmixFrame channels ((decodeLEPairs f).map conv)).length [f]
      = some (upmixFrame channels ((decodeLEPairs f).map conv), []) := by
  have hdec : castSliceI16 f = some (decodeLEPairs f) := by
    unfold castSliceI16
    rw [if_pos hf]
  obtain ⟨m, hm⟩ : ∃ m, (upmixFrame channels ((decodeLEPairs f).map conv)).length
      = m + 1 :=
    ⟨(upmixFrame channels ((decodeLEPairs f).map conv)).length - 1, by omega⟩
  rw [hm]
  simp only [fillFromQueue, hdec]
  rw [← hm, List.take_length, hm]
  simp [fillFromQueue]

/-- C4 counterexample: the playback reinterpretation of the bytes of a frame as
i16 samples is not total; a 3-byte inbound frame makes it fail (a
`bytemuck::cast_slice` panic in the source). -/
theorem C4_cast_not_total_cex : castSliceI16 [0, 0, 0] = none := rfl

/-- C4 amended: the reader task forwards every inbound binary payload to
the playback queue unchanged and unchecked, and the playback
reinterpretation succeeds exactly when the byte length of the payload is even;
an odd-length inbound message therefore makes the playback callback fail
instead of filling the buffer. -/
theorem C4_forward_and_cast_parity (data bytes : List Nat)
    (channels bufLen : Nat) (rest : List (List Nat)) :
    readerForward (.binary data) = some data
    ∧ ((castSliceI16 bytes).isSome ↔ bytes.length % 2 = 0)
    ∧ (bytes.length % 2 = 1
        → outputCallbackI16 channels true (bufLen + 1) (bytes :: rest) = none) := by
  refine ⟨rfl, ?_, ?_⟩
  · unfold castSliceI16
    split <;> simp [*]
  · intro hodd
    have hdec : castSliceI16 bytes = none := by
      unfold castSliceI16
      rw [if_neg (by omega)]
    simp only [outputCallbackI16, outputCallback, if_pos, fillFromQueue, hdec]

/-- Witness for the amended C4 at a concrete odd-length frame. -/
theorem C4_forward_and_cast_parity_witness :
    readerForward (.binary [1]) = some [1]
    ∧ ((castSliceI16 [0]).isSome ↔ [0].length % 2 = 0)
    ∧ ([0].length % 2 = 1
        → outputCallbackI16 1 true (0 + 1) ([0] :: []) = none) :=
  C4_forward_and_cast_parity [1] [0] 1 0 []

/-- C5: every playback callback invocation fills the whole output buffer,
in both the I16 and the F32 branch: a failed non-blocking lock zeroes the
entire buffer and leaves the queue untouched; when the loop exhausts the
queue (which includes the queue being empty on entry) the buffer holds
exactly the audio content of the dequeued frames, truncated to the buffer,
followed by zeros in every remaining slot; and dequeued frames are removed
from the front of the queue, so no sample of a previously played frame can
be replayed. -/
theorem C5_playback_fills_buffer (channels bufLen : Nat)
    (queue : List (List Nat)) (hwf : ∀ f ∈ queue, f.length % 2 = 0) :
    (outputCallbackI16 channels false bufLen queue
        = some (List.replicate bufLen 0, queue))
    ∧ (outputCallbackF32 channels false bufLen queue
        = some (List.replicate bufLen 0, queue))
    ∧ (∃ out q', outputCallbackI16 channels true bufLen queue = some (out, q')
        ∧ out.length = bufLen ∧ (∃ k, q' = queue.drop k)
        ∧ (q' = [] →
            out = (upmixQueue channels (fun s => s) queue).take bufLen
              ++ List.replicate
                  (bufLen - (upmixQueue channels (fun s => s) queue).length) 0))
    ∧ (∃ out q', outputCallbackF32 channels true bufLen queue = some (out, q')
        ∧ out.length = bufLen ∧ (∃ k, q' = queue.drop k)
        ∧ (q' = [] →
            out = (upmixQueue channels i16ToF32 queue).take bufLen
              ++ List.replicate
                  (bufLen - (upmixQueue channels i16ToF32 queue).length) 0)) := by
  refine ⟨rfl, rfl, ?_, ?_⟩
  · obtain ⟨out, q', heq, hlen, hdrop, hzero⟩ :=
      fillFromQueue_total channels (fun s => s) 0 queue bufLen hwf
    exact ⟨out, q', heq, hlen, hdrop, hzero⟩
  · obtain ⟨out, q', heq, hlen, hdrop, hzero⟩ :=
      fillFromQueue_total channels i16ToF32 0 queue bufLen hwf
    exact ⟨out, q', heq, hlen, hdrop, hzero⟩

/-- Witness for C5 at a concrete callback invocation whose single queued
frame underruns a 2-slot buffer, so the zero-tail conjunct applies. -/
theorem C5_playback_fills_buffer_witness :
    (outputCallbackI16 1 false 2 [[7, 0]] = some (List.replicate 2 0, [[7, 0]]))
    ∧ (outputCallbackF32 1 false 2 [[7, 0]] = some (List.replicate 2 0, [[7, 0]]))
    ∧ (∃ out q', outputCallbackI16 1 true 2 [[7, 0]] = some (out, q')
        ∧ out.length = 2 ∧ (∃ k, q' = ([[7, 0]] : List (List Nat)).drop k)
        ∧ (q' = [] →
            out = (upmixQueue 1 (fun s => s) [[7, 0]]).take 2
              ++ List.replicate (2 - (upmixQueue 1 (fun s => s) [[7, 0]]).length) 0))
    ∧ (∃ out q', outputCallbackF32 1 true 2 [[7, 0]] = some (out, q')
        ∧ out.length = 2 ∧ (∃ k, q' = ([[7, 0]] : List (List Nat)).drop k)
        ∧ (q' = [] →
            out = (upmixQueue 1 i16ToF32 [[7, 0]]).take 2
              ++ List.replicate (2 - (upmixQueue 1 i16ToF32 [[7, 0]]).length) 0)) :=
  C5_playback_fills_buffer 1 2 [[7, 0]] (by decide)

/-- C6: a dequeued inbound frame is played by writing each decoded mono
sample to every one of the N channels of the device; the I16 branch copies each
sample unchanged and the F32 branch writes exactly s / 32768. -/
theorem C6_upmix_and_conversion (channels : Nat) (samples : List Int)
    (hch : 0 < channels) (hne : samples ≠ []) (hb : ∀ s ∈ samples, isI16 s) :
    outputCallbackI16 channels true (channels * samples.length)
        [serializeFrame samples]
      = some ((samples.map (fun s => List.replicate channels s)).flatten, [])
    ∧ outputCallbackF32 channels true (channels * samples.length)
        [serializeFrame samples]
      = some ((samples.map
          (fun (s : Int) => List.replicate channels ((s : ℚ) / 32768))).flatten, []) := by
  have hdecode : decodeLEPairs (serializeFrame samples) = samples :=
    decode_serialize_roundtrip samples hb
  have heven := serializeFrame_even samples
  have hlenpos : 0 < samples.length := List.length_pos.mpr hne
  constructor
  · have hup : upmixFrame channels
        ((decodeLEPairs (serializeFrame samples)).map (fun s => s))
        = (samples.map (fun s => List.replicate channels s)).flatten := by
      rw [hdecode, List.map_id']
      unfold upmixFrame
      congr 1
      exact List.map_congr_left (fun s _ => writeSample_eq_replicate channels s)
    have hlen : (upmixFrame channels
        ((decodeLEPairs (serializeFrame samples)).map (fun s => s))).length
        = channels * samples.length := by
      rw [upmixFrame_length, hdecode, List.length_map]
    have := fillFromQueue_single_exact channels (fun s => s) 0
      (serializeFrame samples) heven
      (by rw [hlen]; positivity)
    rw [hlen, hup] at this
    simpa [outputCallbackI16, outputCallback] using this
  · have hup : upmixFrame channels
        ((decodeLEPairs (serializeFrame samples)).map i16ToF32)
        = (samples.map
            (fun (s : Int) => List.replicate channels ((s : ℚ) / 32768))).flatten := by
      rw [hdecode]
      unfold upmixFrame
      rw [List.map_map]
      congr 1
      apply List.map_congr_left
      intro s _
      rw [Function.comp_apply, writeSample_eq_replicate]
      rfl
    have hlen : (upmixFrame channels
        ((decodeLEPairs (serializeFrame samples)).map i16ToF32)).length
        = channels * samples.length := by
      rw [upmixFrame_length, hdecode, List.length_map]
    have := fillFromQueue_single_exact channels i16ToF32 0
      (serializeFrame samples) heven
      (by rw [hlen]; positivity)
    rw [hlen, hup] at this
    simpa [outputCallbackF32, outputCallback] using this

/-- Witness for C6: one frame of two samples on a stereo device. -/
theorem C6_upmix_and_conversion_witness :
    outputCallbackI16 2 true (2 * ([16384, -16384] : List Int).length)
        [serializeFrame [16384, -16384]]
      = some ((([16384, -16384] : List Int).map
          (fun s => List.replicate 2 s)).flatten, [])
    ∧ outputCallbackF32 2 true (2 * ([16384, -16384] : List Int).length)
        [serializeFrame [16384, -16384]]
      = some ((([16384, -16384] : List Int).map
          (fun (s : Int) => List.replicate 2 ((s : ℚ) / 32768))).flatten, []) :=
  C6_upmix_and_conversion 2 [16384, -16384] (by decide) (by decide) (by decide)

-- Session and controller theorems

/-- C2: on every session the first message on the wire is the text
handshake, before any binary frame and any stats message; with the default
config its JSON is the expected camelCase literal. -/
theorem C2_handshake_first (cfg : AudioConfig) (events : List LoopEvent) :
    (sessionWire cfg events).head? = some (WireMsg.text (initJson cfg))
    ∧ initJson defaultConfig
        = "\x7b\"type\":\"init\",\"sampleRate\":48000,\"channels\":1,\"format\":\"S16LE\",\"frameSize\":480\x7d" :=
  ⟨rfl, rfl⟩

/-- C3 counterexample: with no default input device, `start_stream` still
returns Ok with a handle; it does not report `DeviceUnavailable` to the
caller. -/
theorem C3_returns_ok_without_input_cex :
    (start_stream ⟨none, some []⟩ "ws://localhost" defaultConfig).1 = StartResult.ok
    ∧ (start_stream ⟨none, some []⟩ "ws://localhost" defaultConfig).1
        ≠ StartResult.err StartError.DeviceUnavailable :=
  ⟨rfl, by decide⟩

/-- C3 amended: when no default input device exists the worker thread only
logs the failure and exits before any network activity, so no socket is
opened; but `start_stream` still returns Ok with a handle — the error is
never propagated to the caller. -/
theorem C3_no_input_no_socket (env : HostEnv) (url : String)
    (cfg : AudioConfig) (h : env.defaultInput = none) :
    (start_stream env url cfg).1 = StartResult.ok
    ∧ (start_stream env url cfg).2 = [WorkerAction.logError "No default input device"]
    ∧ ∀ u, WorkerAction.socketConnect u ∉ (start_stream env url cfg).2 := by
  have hbody : workerBody env url cfg = [.logError "No default input device"] := by
    unfold workerBody
    rw [h]
  refine ⟨rfl, hbody, ?_⟩
  intro u
  show WorkerAction.socketConnect u ∉ workerBody env url cfg
  rw [hbody]
  simp

/-- Witness for the amended C3 at a concrete environment. -/
theorem C3_no_input_no_socket_witness :
    (start_stream ⟨none, some []⟩ "ws://localhost" defaultConfig).1 = StartResult.ok
    ∧ (start_stream ⟨none, some []⟩ "ws://localhost" defaultConfig).2
        = [WorkerAction.logError "No default input device"]
    ∧ ∀ u, WorkerAction.socketConnect u
        ∉ (start_stream ⟨none, some []⟩ "ws://localhost" defaultConfig).2 :=
  C3_no_input_no_socket ⟨none, some []⟩ "ws://localhost" defaultConfig rfl

/-- C8: the output selector takes the first match in the exact order
(cfg.channels, I16), (2, I16), (cfg.channels, F32), (2, F32), then the
first supported configuration of any kind, and fails exactly when the
supported list is empty. -/
theorem C8_output_ladder (cfgChannels : Nat) (supported : List SupportedRange) :
    (pickOutput cfgChannels supported = none ↔ supported = [])
    ∧ (∀ r, supported.find? (configMatch cfgChannels SampleFormat.I16) = some r →
        pickOutput cfgChannels supported = some (r, SampleFormat.I16))
    ∧ (supported.find? (configMatch cfgChannels SampleFormat.I16) = none →
        ∀ r, supported.find? (configMatch 2 SampleFormat.I16) = some r →
        pickOutput cfgChannels supported = some (r, SampleFormat.I16))
    ∧ (supported.find? (configMatch cfgChannels SampleFormat.I16) = none →
        supported.find? (configMatch 2 SampleFormat.I16) = none →
        ∀ r, supported.find? (configMatch cfgChannels SampleFormat.F32) = some r →
        pickOutput cfgChannels supported = some (r, SampleFormat.F32))
    ∧ (supported.find? (configMatch cfgChannels SampleFormat.I16) = none →
        supported.find? (configMatch 2 SampleFormat.I16) = none →
        supported.find? (configMatch cfgChannels SampleFormat.F32) = none →
        ∀ r, supported.find? (configMatch 2 SampleFormat.F32) = some r →
        pickOutput cfgChannels supported = some (r, SampleFormat.F32))
    ∧ (supported.find? (configMatch cfgChannels SampleFormat.I16) = none →
        supported.find? (configMatch 2 SampleFormat.I16) = none →
        supported.find? (configMatch cfgChannels SampleFormat.F32) = none →
        supported.find? (configMatch 2 SampleFormat.F32) = none →
        ∀ first tl, supported = first :: tl →
        pickOutput cfgChannels supported = some (first, first.sampleFormat)) := by
  refine ⟨⟨?_, ?_⟩, ?_, ?_, ?_, ?_, ?_⟩
  · intro h
    cases supported with
    | nil => rfl
    | cons first tl =>
      exfalso
      cases hp : pickFormatsLoop (first :: tl) cfgChannels
          [SampleFormat.I16, SampleFormat.F32] with
      | some p => simp [pickOutput, hp] at h
      | none => simp [pickOutput, hp] at h
  · intro h
    subst h
    rfl
  · intro r h
    simp [pickOutput, pickFormatsLoop, pickChannelsLoop, h]
  · intro h1 r h2
    simp [pickOutput, pickFormatsLoop, pickChannelsLoop, h1, h2]
  · intro h1 h2 r h3
    simp [pickOutput, pickFormatsLoop, pickChannelsLoop, h1, h2, h3]
  · intro h1 h2 h3 r h4
    simp [pickOutput, pickFormatsLoop, pickChannelsLoop, h1, h2, h3, h4]
  · intro h1 h2 h3 h4 first tl hsup
    subst hsup
    simp [pickOutput, pickFormatsLoop, pickChannelsLoop, h1, h2, h3, h4]

/-- Witness for C8 at a concrete supported list hitting the fallback. -/
theorem C8_output_ladder_witness :
    (pickOutput 1 [⟨2, SampleFormat.F32, 8000, 48000⟩] = none
        ↔ [(⟨2, SampleFormat.F32, 8000, 48000⟩ : SupportedRange)] = [])
    ∧ (∀ r, [(⟨2, SampleFormat.F32, 8000, 48000⟩ : SupportedRange)].find?
          (configMatch 1 SampleFormat.I16) = some r →
        pickOutput 1 [⟨2, SampleFormat.F32, 8000, 48000⟩] = some (r, SampleFormat.I16))
    ∧ ([(⟨2, SampleFormat.F32, 8000, 48000⟩ : SupportedRange)].find?
          (configMatch 1 SampleFormat.I16) = none →
        ∀ r, [(⟨2, SampleFormat.F32, 8000, 48000⟩ : SupportedRange)].find?
          (configMatch 2 SampleFormat.I16) = some r →
        pickOutput 1 [⟨2, SampleFormat.F32, 8000, 48000⟩] = some (r, SampleFormat.I16))
    ∧ ([(⟨2, SampleFormat.F32, 8000, 48000⟩ : SupportedRange)].find?
          (configMatch 1 SampleFormat.I16) = none →
        [(⟨2, SampleFormat.F32, 8000, 48000⟩ : SupportedRange)].find?
          (configMatch 2 SampleFormat.I16) = none →
        ∀ r, [(⟨2, SampleFormat.F32, 8000, 48000⟩ : SupportedRange)].find?
          (configMatch 1 SampleFormat.F32) = some r →
        pickOutput 1 [⟨2, SampleFormat.F32, 8000, 48000⟩] = some (r, SampleFormat.F32))
    ∧ ([(⟨2, SampleFormat.F32, 8000, 48000⟩ : SupportedRange)].find?
          (configMatch 1 SampleFormat.I16) = none →
        [(⟨2, SampleFormat.F32, 8000, 48000⟩ : SupportedRange)].find?
          (configMatch 2 SampleFormat.I16) = none →
        [(⟨2, SampleFormat.F32, 8000, 48000⟩ : SupportedRange)].find?
          (configMatch 1 SampleFormat.F32) = none →
        ∀ r, [(⟨2, SampleFormat.F32, 8000, 48000⟩ : SupportedRange)].find?
          (configMatch 2 SampleFormat.F32) = some r →
        pickOutput 1 [⟨2, SampleFormat.F32, 8000, 48000⟩] = some (r, SampleFormat.F32))
    ∧ ([(⟨2, SampleFormat.F32, 8000, 48000⟩ : SupportedRange)].find?
          (configMatch 1 SampleFormat.I16) = none →
        [(⟨2, SampleFormat.F32, 8000, 48000⟩ : SupportedRange)].find?
          (configMatch 2 SampleFormat.I16) = none →
        [(⟨2, SampleFormat.F32, 8000, 48000⟩ : SupportedRange)].find?
          (configMatch 1 SampleFormat.F32) = none →
        [(⟨2, SampleFormat.F32, 8000, 48000⟩ : SupportedRange)].find?
          (configMatch 2 SampleFormat.F32) = none →
        ∀ first tl, [(⟨2, SampleFormat.F32, 8000, 48000⟩ : SupportedRange)]
          = first :: tl →
        pickOutput 1 [⟨2, SampleFormat.F32, 8000, 48000⟩]
          = some (first, first.sampleFormat)) :=
  C8_output_ladder 1 [⟨2, SampleFormat.F32, 8000, 48000⟩]

theorem queueRun_sublist_aux (cap : Nat) :
    ∀ (events : List QueueEvent) (s : QueueState),
    List.Sublist
      ((events.foldl (queueStep cap) s).consumed
        ++ (events.foldl (queueStep cap) s).queue)
      (s.consumed ++ s.queue ++ producedFrames events) := by
  intro events
  induction events with
  | nil =>
    intro s
    simp [producedFrames]
  | cons e rest ih =>
    intro s
    rw [List.foldl_cons]
    cases e with
    | produce f =>
      have h := ih (queueStep cap s (.produce f))
      refine h.trans ?_
      show List.Sublist (s.consumed ++ trySendQueue cap s.queue f ++ producedFrames rest)
        (s.consumed ++ s.queue ++ producedFrames (.produce f :: rest))
      have hpf : producedFrames (.produce f :: rest) = f :: producedFrames rest := rfl
      rw [hpf]
      unfold trySendQueue
      split
      · simp [List.append_assoc]
      · exact List.Sublist.append_left (List.sublist_cons_self f _)
          (s.consumed ++ s.queue)
    | consume =>
      have hpf : producedFrames (.consume :: rest) = producedFrames rest := rfl
      rw [hpf]
      obtain ⟨q, c⟩ := s
      cases q with
      | nil => exact ih ⟨[], c⟩
      | cons f q' =>
        have h := ih ⟨q', c ++ [f]⟩
        refine h.trans ?_
        simp [List.append_assoc]

/-- C9: with the 64-frame outbound queue, the frames the network session
receives (followed by those still queued) form a sublist of the frames
capture produced — received count is at most produced count, order is
preserved and nothing is duplicated — and a `try_send` against a full
queue drops the new frame, leaving the state unchanged, without blocking. -/
theorem C9_queue_drop_no_duplicates (events : List QueueEvent) :
    List.Sublist ((queueRun 64 events).consumed ++ (queueRun 64 events).queue)
      (producedFrames events)
    ∧ (queueRun 64 events).consumed.length ≤ (producedFrames events).length
    ∧ (∀ (s : QueueState) (f : List Nat), 64 ≤ s.queue.length →
        queueStep 64 s (.produce f) = s) := by
  have h := queueRun_sublist_aux 64 events ⟨[], []⟩
  simp only [List.nil_append] at h
  have h' : List.Sublist ((queueRun 64 events).consumed ++ (queueRun 64 events).queue)
      (producedFrames events) := h
  refine ⟨h', ?_, ?_⟩
  · exact ((List.sublist_append_left _ _).trans h').length_le
  · intro s f hfull
    obtain ⟨q, c⟩ := s
    unfold queueStep trySendQueue
    simp only at hfull ⊢
    rw [if_neg (by omega)]

/-- Witness for C9 on a concrete event trace. -/
theorem C9_queue_drop_no_duplicates_witness :
    List.Sublist ((queueRun 64 [.produce [1], .consume]).consumed
        ++ (queueRun 64 [.produce [1], .consume]).queue)
      (producedFrames [.produce [1], .consume])
    ∧ (queueRun 64 [.produce [1], .consume]).consumed.length
        ≤ (producedFrames [.produce [1], .consume]).length
    ∧ (∀ (s : QueueState) (f : List Nat), 64 ≤ s.queue.length →
        queueStep 64 s (.produce f) = s) :=
  C9_queue_drop_no_duplicates [.produce [1], .consume]
